import Mathlib

/-!
Verification of the symbol layout engine of `src/symbol/symbol_layout.ts`.

The development is a shallow embedding: JavaScript numbers are modelled as
rationals (`ℚ`), tile-space coordinates as rational points, JavaScript
`undefined`/`null` as `Option.none`, and the growable bucket stores as Lean
lists with append.  Stateful functions of the source become explicit
state-passing functions.  The collaborator modules that the source imports
but that are not part of the source tree (`clipLine`, `getAnchors`,
`findPoleOfInaccessibility`, `classifyRings`, `shapeText`, `warnOnce`,
`SIZE_PACK_FACTOR`) are taken as abstract parameters or are modelled from
the specification, as noted in the corresponding doc comments.
-/

namespace SymbolLayout

/-- A 2-D point in tile space (`@mapbox/point-geometry`); coordinates are
modelled as rationals. -/
structure Pt where
  x : ℚ
  y : ℚ
deriving DecidableEq, Repr

/-- Squared Euclidean distance between two points.  The source's
`Point#dist` is `sqrt(dx*dx + dy*dy)`; all comparisons of the source against
a radius `r` are expressed here through the squared distance. -/
def distSq (p q : Pt) : ℚ :=
  (p.x - q.x) * (p.x - q.x) + (p.y - q.y) * (p.y - q.y)

theorem distSq_comm (p q : Pt) : distSq p q = distSq q p := by
  unfold distSq; ring

theorem distSq_nonneg (p q : Pt) : 0 ≤ distSq p q := by
  unfold distSq
  have h1 := mul_self_nonneg (p.x - q.x)
  have h2 := mul_self_nonneg (p.y - q.y)
  linarith

/-- `dist p q < r` of the source (`anchor.dist(otherAnchors[k]) < repeatDistance`).
Since the Euclidean distance is non-negative, `dist < r` holds iff `r` is
positive and the squared distance is below `r * r`; this is the exact
rational rendering of the source's floating comparison. -/
def distLtB (p q : Pt) (r : ℚ) : Bool :=
  decide (0 < r) && decide (distSq p q < r * r)

/-- The collision padding array `[left, top, right, bottom]` attached to a
shaping (`shaped.collisionPadding`). -/
structure Padding where
  p0 : ℚ
  p1 : ℚ
  p2 : ℚ
  p3 : ℚ
deriving DecidableEq, Repr

/-- One positioned glyph of a shaping (`positionedGlyph.x/y`). -/
structure PositionedGlyph where
  x : ℚ
  y : ℚ
deriving DecidableEq, Repr

/-- One positioned line of a shaping (`shaping.positionedLines[i]`). -/
structure PositionedLine where
  positionedGlyphs : List PositionedGlyph
deriving DecidableEq, Repr

/-- The `Shaping` record produced by the text shaper: bounding box
(`top`/`bottom`/`left`/`right`), positioned lines, the rendered text used
for de-duplication, the inline-icon flag and the optional collision
padding. -/
structure Shaping where
  top : ℚ
  bottom : ℚ
  left : ℚ
  right : ℚ
  positionedLines : List PositionedLine
  text : String
  iconsInText : Bool
  collisionPadding : Option Padding
deriving DecidableEq, Repr

/-! ## Anchor range guard (`addSymbolAtAnchor`, symbol_layout.ts:561-567)

`addSymbolAtAnchor` returns early — emitting nothing — whenever
`anchor.x < 0 || anchor.x >= EXTENT || anchor.y < 0 || anchor.y >= EXTENT`.
`EXTENT` is imported from `style-spec/data/extent` (not part of the source
tree), so it is kept as a parameter `extent` throughout. -/

/-- The guard of `addSymbolAtAnchor`: `true` iff the anchor survives the
early return, i.e. both coordinates lie in `[0, extent)`. -/
def addSymbolAtAnchorKeeps (extent : ℚ) (a : Pt) : Bool :=
  !(decide (a.x < 0) || decide (a.x ≥ extent) || decide (a.y < 0) || decide (a.y ≥ extent))

theorem addSymbolAtAnchorKeeps_iff (extent : ℚ) (a : Pt) :
    addSymbolAtAnchorKeeps extent a = true ↔
      (0 ≤ a.x ∧ a.x < extent ∧ 0 ≤ a.y ∧ a.y < extent) := by
  unfold addSymbolAtAnchorKeeps
  simp only [Bool.not_eq_true', Bool.or_eq_false_iff, decide_eq_false_iff_not, not_lt, not_le,
    ge_iff_le]
  constructor
  · rintro ⟨⟨⟨h1, h2⟩, h3⟩, h4⟩; exact ⟨h1, h2, h3, h4⟩
  · rintro ⟨h1, h2, h3, h4⟩; exact ⟨⟨⟨h1, h2⟩, h3⟩, h4⟩

/-! ## Point placement (`addFeature`, symbol_layout.ts:671-677)

For a `Point`-typed feature the source iterates every coordinate of every
point list of the geometry and calls `addSymbolAtAnchor` with an anchor at
exactly that coordinate; a surviving anchor leads to exactly one
`symbolInstances.emplaceBack` (in `addSymbol`) anchored at `anchor.x/y`.
The bucket's instance array is modelled by the ordered list of emitted
instance anchors. -/

/-- The nested point-placement loops of `addFeature`, appending one
instance anchor per in-range coordinate to the accumulator (the bucket's
symbol-instance array). -/
def addFeaturePoints (extent : ℚ) (geometry : List (List Pt)) (acc : List Pt) : List Pt :=
  geometry.foldl
    (fun acc points =>
      points.foldl
        (fun acc point =>
          if addSymbolAtAnchorKeeps extent point then acc ++ [point] else acc)
        acc)
    acc

theorem addFeaturePoints_inner (extent : ℚ) (points : List Pt) (acc : List Pt) :
    points.foldl
        (fun acc point =>
          if addSymbolAtAnchorKeeps extent point then acc ++ [point] else acc) acc =
      acc ++ points.filter (addSymbolAtAnchorKeeps extent) := by
  induction points generalizing acc with
  | nil => simp
  | cons p ps ih =>
    simp only [List.foldl_cons, List.filter_cons]
    by_cases h : addSymbolAtAnchorKeeps extent p
    · simp [h, ih, List.append_assoc]
    · simp [h, ih]

theorem addFeaturePoints_eq_filter (extent : ℚ) (geometry : List (List Pt)) (acc : List Pt) :
    addFeaturePoints extent geometry acc =
      acc ++ (geometry.flatten.filter (addSymbolAtAnchorKeeps extent)) := by
  induction geometry generalizing acc with
  | nil => simp [addFeaturePoints]
  | cons ring rest ih =>
    simp only [addFeaturePoints, List.foldl_cons] at *
    rw [addFeaturePoints_inner, ih, List.flatten_cons, List.filter_append, List.append_assoc]

/-- C2: For every feature with symbol-placement = "point" and Point
geometry, the number of emitted Symbol Instances equals the number of point
coordinates whose x and y both lie in `[0, EXTENT)`; each emitted instance
is anchored at an original coordinate (never clamped into range), and each
out-of-range coordinate contributes no instance. -/
theorem point_placement_instance_count (extent : ℚ) (geometry : List (List Pt)) :
    (addFeaturePoints extent geometry []).length =
        (geometry.flatten.filter
          (fun p => decide (0 ≤ p.x ∧ p.x < extent ∧ 0 ≤ p.y ∧ p.y < extent))).length ∧
      (∀ a ∈ addFeaturePoints extent geometry [],
        a ∈ geometry.flatten ∧ 0 ≤ a.x ∧ a.x < extent ∧ 0 ≤ a.y ∧ a.y < extent) ∧
      (∀ p ∈ geometry.flatten, ¬ (0 ≤ p.x ∧ p.x < extent ∧ 0 ≤ p.y ∧ p.y < extent) →
        (addFeaturePoints extent geometry []).count p = 0) := by
  have hfilter : ∀ p : Pt,
      (addSymbolAtAnchorKeeps extent p) =
        (decide (0 ≤ p.x ∧ p.x < extent ∧ 0 ≤ p.y ∧ p.y < extent)) := by
    intro p
    by_cases h : addSymbolAtAnchorKeeps extent p
    · rw [h]
      symm
      rw [decide_eq_true_iff]
      exact (addSymbolAtAnchorKeeps_iff extent p).mp h
    · simp only [Bool.not_eq_true] at h
      rw [h]
      symm
      rw [decide_eq_false_iff_not]
      intro hc
      rw [← addSymbolAtAnchorKeeps_iff] at hc
      rw [h] at hc
      exact Bool.false_ne_true hc
  rw [addFeaturePoints_eq_filter]
  refine ⟨?_, ?_, ?_⟩
  · simp only [List.nil_append]
    congr 1
    exact List.filter_congr (fun p _ => hfilter p)
  · intro a ha
    simp only [List.nil_append, List.mem_filter] at ha
    exact ⟨ha.1, (addSymbolAtAnchorKeeps_iff extent a).mp ha.2⟩
  · intro p _ hout
    simp only [List.nil_append, List.count_eq_zero]
    intro hmem
    rw [List.mem_filter] at hmem
    exact hout ((addSymbolAtAnchorKeeps_iff extent p).mp hmem.2)

/-- Witness for C2 on a concrete two-point feature at `EXTENT = 8192`:
the in-range point `(5, 5)` is emitted (with its original coordinates)
while the out-of-range point `(-1, 3)` is not. -/
theorem point_placement_instance_count_witness :
    ((⟨5, 5⟩ : Pt) ∈ addFeaturePoints 8192 [[⟨5, 5⟩, ⟨-1, 3⟩]] []) ∧
      ((⟨5, 5⟩ : Pt) ∈ ([[(⟨5, 5⟩ : Pt), ⟨-1, 3⟩]]).flatten ∧
        (0 : ℚ) ≤ 5 ∧ (5 : ℚ) < 8192 ∧ (0 : ℚ) ≤ 5 ∧ (5 : ℚ) < 8192) := by
  have h5 : addSymbolAtAnchorKeeps 8192 (⟨5, 5⟩ : Pt) = true := by
    rw [addSymbolAtAnchorKeeps_iff]
    norm_num
  have hm1 : addSymbolAtAnchorKeeps 8192 (⟨-1, 3⟩ : Pt) = false := by
    unfold addSymbolAtAnchorKeeps
    rw [decide_eq_true (show (-1 : ℚ) < 0 by norm_num)]
    rfl
  have hmem : (⟨5, 5⟩ : Pt) ∈ addFeaturePoints 8192 [[⟨5, 5⟩, ⟨-1, 3⟩]] [] := by
    simp [addFeaturePoints, h5, hm1]
  exact ⟨hmem, (point_placement_instance_count 8192 [[⟨5, 5⟩, ⟨-1, 3⟩]]).2.1 ⟨5, 5⟩ hmem⟩

/-! ## `evaluateCircleCollisionFeature` (symbol_layout.ts:833-844)

The source mutates its argument: when `shaped.collisionPadding` is present
(a JavaScript array, hence always truthy) it permanently rewrites
`shaped.top` and `shaped.bottom`; it then returns
`height > 0 ? Math.max(10, height) : null` for `height = bottom - top`.
The mutation is embedded by returning the updated shaping alongside the
result. -/

/-- The in-place padding update at the head of
`evaluateCircleCollisionFeature`: `shaped.top -= collisionPadding[1]`,
`shaped.bottom += collisionPadding[3]` (when the padding is present). -/
def applyCirclePadding (shaped : Shaping) : Shaping :=
  match shaped.collisionPadding with
  | some pad => { shaped with top := shaped.top - pad.p1, bottom := shaped.bottom + pad.p3 }
  | none => shaped

/-- `evaluateCircleCollisionFeature`: returns the (possibly mutated)
shaping together with the returned diameter (`none` models `null`):
`height > 0 ? Math.max(10, height) : null`. -/
def evaluateCircleCollisionFeature (shaped : Shaping) : Shaping × Option ℚ :=
  (applyCirclePadding shaped,
    if 0 < (applyCirclePadding shaped).bottom - (applyCirclePadding shaped).top
    then some (max 10 ((applyCirclePadding shaped).bottom - (applyCirclePadding shaped).top))
    else none)

/-- The padded height used by `evaluateCircleCollisionFeature`: the height
of the shaping after the collision padding has been applied. -/
def paddedHeight (shaped : Shaping) : ℚ :=
  (applyCirclePadding shaped).bottom - (applyCirclePadding shaped).top

/-- C5: `evaluateCircleCollisionFeature` returns `max(10, padded height)`
when the height after collision padding is strictly positive — so the
returned diameter is never below 10 — and returns `null` when the padded
height is ≤ 0. -/
theorem circle_collision_diameter (shaped : Shaping) :
    (0 < paddedHeight shaped →
        (evaluateCircleCollisionFeature shaped).2 = some (max 10 (paddedHeight shaped)) ∧
        ∀ d, (evaluateCircleCollisionFeature shaped).2 = some d → 10 ≤ d) ∧
      (paddedHeight shaped ≤ 0 → (evaluateCircleCollisionFeature shaped).2 = none) := by
  constructor
  · intro hpos
    have hres : (evaluateCircleCollisionFeature shaped).2 = some (max 10 (paddedHeight shaped)) := by
      unfold evaluateCircleCollisionFeature
      unfold paddedHeight at hpos ⊢
      rw [if_pos hpos]
    refine ⟨hres, fun d hd => ?_⟩
    rw [hres] at hd
    injection hd with hd
    rw [← hd]
    exact le_max_left 10 _
  · intro hle
    unfold evaluateCircleCollisionFeature
    unfold paddedHeight at hle
    rw [if_neg (not_lt.mpr hle)]

/-- Witness for C5 at a concrete shaping with positive padded height. -/
def circleShapingA : Shaping :=
  { top := -4, bottom := 0, left := -3, right := 3,
    positionedLines := [⟨[⟨0, 0⟩]⟩], text := "A", iconsInText := false,
    collisionPadding := some ⟨0, 1, 0, 1⟩ }

theorem circle_collision_diameter_witness :
    (0 : ℚ) < paddedHeight circleShapingA ∧
      (evaluateCircleCollisionFeature circleShapingA).2 = some (max 10 (paddedHeight circleShapingA)) := by
  have h : (0 : ℚ) < paddedHeight circleShapingA := by
    unfold paddedHeight applyCirclePadding circleShapingA
    norm_num
  exact ⟨h, ((circle_collision_diameter circleShapingA).1 h).1⟩

/-- A second concrete shaping: tall enough that both padded heights exceed
the floor of 10, so the two successive calls return different diameters. -/
def circleShapingB : Shaping :=
  { top := 0, bottom := 12, left := 0, right := 0,
    positionedLines := [], text := "B", iconsInText := false,
    collisionPadding := some ⟨0, 2, 0, 2⟩ }

/-- C10: the mutation performed by `evaluateCircleCollisionFeature` when
a collision padding is present: `top` drops by `padding[1]`, `bottom`
grows by `padding[3]`, every other field is unchanged, a second call on the
result applies the padding again (the function is not idempotent), and the
second call can return a strictly larger diameter than the first. -/
theorem circle_collision_mutates (s : Shaping) (pad : Padding)
    (hp : s.collisionPadding = some pad) :
    ((evaluateCircleCollisionFeature s).1.top = s.top - pad.p1 ∧
        (evaluateCircleCollisionFeature s).1.bottom = s.bottom + pad.p3 ∧
        (evaluateCircleCollisionFeature s).1.left = s.left ∧
        (evaluateCircleCollisionFeature s).1.right = s.right ∧
        (evaluateCircleCollisionFeature s).1.positionedLines = s.positionedLines ∧
        (evaluateCircleCollisionFeature s).1.text = s.text ∧
        (evaluateCircleCollisionFeature s).1.iconsInText = s.iconsInText ∧
        (evaluateCircleCollisionFeature s).1.collisionPadding = s.collisionPadding) ∧
      ((evaluateCircleCollisionFeature (evaluateCircleCollisionFeature s).1).1.top
          = s.top - pad.p1 - pad.p1 ∧
        (evaluateCircleCollisionFeature (evaluateCircleCollisionFeature s).1).1.bottom
          = s.bottom + pad.p3 + pad.p3) ∧
      (∃ s₀ d₁ d₂,
        (evaluateCircleCollisionFeature s₀).2 = some d₁ ∧
        (evaluateCircleCollisionFeature (evaluateCircleCollisionFeature s₀).1).2 = some d₂ ∧
        d₁ < d₂) := by
  have hApplied : applyCirclePadding s
      = { s with top := s.top - pad.p1, bottom := s.bottom + pad.p3 } := by
    unfold applyCirclePadding
    rw [hp]
  have hFst : (evaluateCircleCollisionFeature s).1 = applyCirclePadding s := rfl
  refine ⟨?_, ?_, ?_⟩
  · rw [hFst, hApplied]
    exact ⟨rfl, rfl, rfl, rfl, rfl, rfl, rfl, rfl⟩
  · have hApplied2 : applyCirclePadding (applyCirclePadding s)
        = { s with top := s.top - pad.p1 - pad.p1, bottom := s.bottom + pad.p3 + pad.p3 } := by
      rw [hApplied]
      unfold applyCirclePadding
      rw [hp]
    constructor
    · show (applyCirclePadding (applyCirclePadding s)).top = s.top - pad.p1 - pad.p1
      rw [hApplied2]
    · show (applyCirclePadding (applyCirclePadding s)).bottom = s.bottom + pad.p3 + pad.p3
      rw [hApplied2]
  · refine ⟨circleShapingB, 16, 20, ?_, ?_, by norm_num⟩
    · show (if 0 < (applyCirclePadding circleShapingB).bottom - (applyCirclePadding circleShapingB).top
          then some (max 10 ((applyCirclePadding circleShapingB).bottom - (applyCirclePadding circleShapingB).top))
          else none) = some 16
      norm_num [applyCirclePadding, circleShapingB]
    · show (if 0 < (applyCirclePadding (applyCirclePadding circleShapingB)).bottom
              - (applyCirclePadding (applyCirclePadding circleShapingB)).top
          then some (max 10 ((applyCirclePadding (applyCirclePadding circleShapingB)).bottom
              - (applyCirclePadding (applyCirclePadding circleShapingB)).top))
          else none) = some 20
      norm_num [applyCirclePadding, circleShapingB]

/-- Witness for C10 at a concrete shaping carrying a collision padding. -/
theorem circle_collision_mutates_witness :
    circleShapingA.collisionPadding = some ⟨0, 1, 0, 1⟩ ∧
      (evaluateCircleCollisionFeature circleShapingA).1.top = circleShapingA.top - 1 ∧
      (evaluateCircleCollisionFeature
        (evaluateCircleCollisionFeature circleShapingA).1).1.bottom = circleShapingA.bottom + 2 := by
  have h := circle_collision_mutates circleShapingA ⟨0, 1, 0, 1⟩ rfl
  refine ⟨rfl, h.1.1, ?_⟩
  have := h.2.1.2
  rw [this]
  norm_num [circleShapingA]

/-! ## Collision-box index bookkeeping of `addSymbol` (symbol_layout.ts:851-1102)

`evaluateBoxCollisionFeature` appends one primitive to the shared
`collisionBoxArray` and returns `collisionBoxArray.length - 1`
(symbol_layout.ts:828-831); for the claims below only this index
bookkeeping matters, so the store is modelled by its length.  `addSymbol`
inserts, in order: the vertical-text box and the vertical-icon box (only in
the non-along-line vertical branch, lines 911-925), the icon box (line
940), and the text box inside the justification loop (line 1021, guarded by
`if (!textBoxIndex)`, a JavaScript truthiness test that also fires when the
index is the number 0).  At the end (lines 1081-1088) the symbol instance
records, per category, either the index and index + 1 or the current store
length; text, vertical-text and icon use an `!== undefined` test while the
vertical-icon category uses a truthiness test. -/

/-- Index bookkeeping of `evaluateBoxCollisionFeature`: one `emplaceBack`
grows the store, and the returned index is the pre-insertion length
(`collisionBoxArray.length - 1` after the insertion). -/
def evaluateBoxCollisionFeatureIdx (len : Nat) : Nat × Nat := (len, len + 1)

/-- JavaScript truthiness of an optional numeric index: `undefined` and the
number `0` are falsy. -/
def jsTruthyIdx : Option Nat → Bool
  | none => false
  | some n => decide (n ≠ 0)

/-- The `textBoxIndex !== undefined ? textBoxIndex : length` /
`textBoxIndex + 1 : length` ternary pair of `emplaceBack`
(symbol_layout.ts:1081-1086). -/
def jsDefinedTernary (idx : Option Nat) (fallback : Nat) : Nat × Nat :=
  match idx with
  | some i => (i, i + 1)
  | none => (fallback, fallback)

/-- The `verticalIconBoxIndex ? verticalIconBoxIndex : length` ternary pair
of `emplaceBack` (symbol_layout.ts:1087-1088), which tests truthiness
rather than definedness. -/
def jsTruthyTernary (idx : Option Nat) (fallback : Nat) : Nat × Nat :=
  match idx with
  | some i => if i = 0 then (fallback, fallback) else (i, i + 1)
  | none => (fallback, fallback)

/-- The vertical-placement block of `addSymbol` (lines 911-926): in the
non-along-line branch it inserts the vertical text box and then, if a
vertically shaped icon exists, the vertical icon box.  Returns
`(verticalTextBoxIndex, verticalIconBoxIndex, new store length)`. -/
def verticalBoxBlock (L0 : Nat) (hasVerticalShaping textAlongLine hasVerticallyShapedIcon : Bool) :
    Option Nat × Option Nat × Nat :=
  if hasVerticalShaping then
    if textAlongLine then (none, none, L0)
    else
      if hasVerticallyShapedIcon then
        (some (evaluateBoxCollisionFeatureIdx L0).1,
          some (evaluateBoxCollisionFeatureIdx (evaluateBoxCollisionFeatureIdx L0).2).1,
          (evaluateBoxCollisionFeatureIdx (evaluateBoxCollisionFeatureIdx L0).2).2)
      else
        (some (evaluateBoxCollisionFeatureIdx L0).1, none, (evaluateBoxCollisionFeatureIdx L0).2)
  else (none, none, L0)

/-- The justification loop of `addSymbol` (lines 1009-1035) restricted to
its text-box bookkeeping: each iteration whose `if (!textBoxIndex)` guard
passes either registers a circle (along-line; no store insertion) or
inserts the text box.  `justCount` is the number of iterations the loop
performs (the `singleLine` break only shortens it). -/
def horizTextBoxLoop (textAlongLine : Bool) : Nat → Option Nat → Nat → Option Nat × Nat
  | 0, tb, len => (tb, len)
  | n + 1, tb, len =>
    if !(jsTruthyIdx tb) then
      if textAlongLine then horizTextBoxLoop textAlongLine n tb len
      else
        horizTextBoxLoop textAlongLine n (some (evaluateBoxCollisionFeatureIdx len).1)
          (evaluateBoxCollisionFeatureIdx len).2
    else horizTextBoxLoop textAlongLine n tb len

/-- The per-category index variables and recorded ranges of one
`addSymbol` call, starting from a collision-box store of length `L0`. -/
structure AddSymbolBoxResult where
  finalLen : Nat
  textBoxIndex : Option Nat
  verticalTextBoxIndex : Option Nat
  iconBoxIndex : Option Nat
  verticalIconBoxIndex : Option Nat
  textBoxRange : Nat × Nat
  verticalTextBoxRange : Nat × Nat
  iconBoxRange : Nat × Nat
  verticalIconBoxRange : Nat × Nat
deriving DecidableEq, Repr

/-- The collision-box bookkeeping of one `addSymbol` call: vertical block,
icon box, justification loop, then the ranges written by
`symbolInstances.emplaceBack`. -/
def addSymbolBoxes (L0 : Nat)
    (hasVerticalShaping textAlongLine hasVerticallyShapedIcon hasShapedIcon : Bool)
    (justCount : Nat) : AddSymbolBoxResult :=
  let vtvi := verticalBoxBlock L0 hasVerticalShaping textAlongLine hasVerticallyShapedIcon
  let ib := if hasShapedIcon then some (evaluateBoxCollisionFeatureIdx vtvi.2.2).1 else none
  let len2 := if hasShapedIcon then (evaluateBoxCollisionFeatureIdx vtvi.2.2).2 else vtvi.2.2
  let tbl := horizTextBoxLoop textAlongLine justCount none len2
  { finalLen := tbl.2
    textBoxIndex := tbl.1
    verticalTextBoxIndex := vtvi.1
    iconBoxIndex := ib
    verticalIconBoxIndex := vtvi.2.1
    textBoxRange := jsDefinedTernary tbl.1 tbl.2
    verticalTextBoxRange := jsDefinedTernary vtvi.1 tbl.2
    iconBoxRange := jsDefinedTernary ib tbl.2
    verticalIconBoxRange := jsTruthyTernary vtvi.2.1 tbl.2 }

/-- The index/range convention asserted by the claim: for a present
category, the inserted primitive's index and that index plus one; for an
absent category, the store length at the moment the instance is written. -/
def claimIndexRange (idx : Option Nat) (storeLen : Nat) : Nat × Nat :=
  match idx with
  | some i => (i, i + 1)
  | none => (storeLen, storeLen)

theorem jsDefinedTernary_eq_claim (idx : Option Nat) (fb : Nat) :
    jsDefinedTernary idx fb = claimIndexRange idx fb := by
  cases idx <;> rfl

theorem verticalBoxBlock_vi_char (L0 : Nat) (hv tal hvi : Bool) :
    (verticalBoxBlock L0 hv tal hvi).2.1 = none ∨
      (verticalBoxBlock L0 hv tal hvi).2.1 = some (L0 + 1) := by
  cases hv <;> cases tal <;> cases hvi <;>
    simp [verticalBoxBlock, evaluateBoxCollisionFeatureIdx]

/-- C4: every Symbol Instance records, for each absent collision-primitive
category, an index equal to the collision-box store's length at the moment
the instance is written, and for each present category the actual inserted
primitive index and that index plus one.  (For the vertical-icon category,
whose ternary tests truthiness rather than definedness, this relies on the
vertical-text box always being inserted first, so the vertical-icon index
is never 0.) -/
theorem symbol_instance_box_ranges (L0 : Nat)
    (hv tal hvi hi : Bool) (jc : Nat) :
    (addSymbolBoxes L0 hv tal hvi hi jc).textBoxRange
        = claimIndexRange (addSymbolBoxes L0 hv tal hvi hi jc).textBoxIndex
            (addSymbolBoxes L0 hv tal hvi hi jc).finalLen ∧
      (addSymbolBoxes L0 hv tal hvi hi jc).verticalTextBoxRange
        = claimIndexRange (addSymbolBoxes L0 hv tal hvi hi jc).verticalTextBoxIndex
            (addSymbolBoxes L0 hv tal hvi hi jc).finalLen ∧
      (addSymbolBoxes L0 hv tal hvi hi jc).iconBoxRange
        = claimIndexRange (addSymbolBoxes L0 hv tal hvi hi jc).iconBoxIndex
            (addSymbolBoxes L0 hv tal hvi hi jc).finalLen ∧
      (addSymbolBoxes L0 hv tal hvi hi jc).verticalIconBoxRange
        = claimIndexRange (addSymbolBoxes L0 hv tal hvi hi jc).verticalIconBoxIndex
            (addSymbolBoxes L0 hv tal hvi hi jc).finalLen := by
  refine ⟨?_, ?_, ?_, ?_⟩ <;> simp only [addSymbolBoxes]
  · exact jsDefinedTernary_eq_claim _ _
  · exact jsDefinedTernary_eq_claim _ _
  · exact jsDefinedTernary_eq_claim _ _
  · rcases verticalBoxBlock_vi_char L0 hv tal hvi with h | h <;> rw [h] <;>
      simp [jsTruthyTernary, claimIndexRange]

/-! ## `anchorIsTooClose` (symbol_layout.ts:1104-1120)

`bucket.compareText` maps rendered text to the array of anchors already
accepted for that text anywhere in the bucket; it is reset to `{}` at the
start of `performSymbolLayout` (line 187).  The JavaScript object is
modelled as an insertion-ordered association list.  For line placement
(lines 632-638) every candidate anchor passes through `anchorIsTooClose`
with `repeatDistance = symbolMinDistance / 2` (line 538). -/

/-- The `compareText` registry. -/
abbrev CompareText := List (String × List Pt)

/-- `compareText[text]` lookup (`text in compareText`). -/
def ctLookup : CompareText → String → Option (List Pt)
  | [], _ => none
  | (k, v) :: rest, t => if k = t then some v else ctLookup rest t

/-- `compareText[text] = v`: overwrite in place if the key exists, else
append (JavaScript object insertion order). -/
def ctSet : CompareText → String → List Pt → CompareText
  | [], t, v => [(t, v)]
  | (k, w) :: rest, t, v => if k = t then (k, v) :: rest else (k, w) :: ctSet rest t v

/-- `anchorIsTooClose`: if the text has no registry entry, create it and
push the anchor (accept); otherwise scan the previously accepted anchors —
if one lies strictly within `repeatDistance`, reject without registering;
else push the anchor (accept).  The source scans the array from its end;
`List.any` has the same truth value. -/
def anchorIsTooClose (ct : CompareText) (text : String) (repeatDistance : ℚ) (anchor : Pt) :
    Bool × CompareText :=
  match ctLookup ct text with
  | none => (false, ctSet ct text [anchor])
  | some others =>
      if others.any (fun o => distLtB anchor o repeatDistance) then (true, ct)
      else (false, ctSet ct text (others ++ [anchor]))

/-- A list of anchors in which no two lie strictly within `r` of each
other. -/
def spacedList (r : ℚ) (l : List Pt) : Prop :=
  l.Pairwise (fun a b => distLtB a b r = false)

/-- Every entry of the registry is a spaced list. -/
def spacedRegistry (r : ℚ) (ct : CompareText) : Prop :=
  ∀ e ∈ ct, spacedList r e.2

theorem distLtB_comm (p q : Pt) (r : ℚ) : distLtB p q r = distLtB q p r := by
  unfold distLtB
  rw [distSq_comm]

theorem ctLookup_mem {ct : CompareText} {t : String} {v : List Pt}
    (h : ctLookup ct t = some v) : (t, v) ∈ ct := by
  induction ct with
  | nil => simp [ctLookup] at h
  | cons e rest ih =>
    obtain ⟨k, w⟩ := e
    by_cases hk : k = t
    · simp only [ctLookup, if_pos hk] at h
      injection h with h
      subst hk; subst h
      exact List.mem_cons_self _ _
    · simp only [ctLookup, if_neg hk] at h
      exact List.mem_cons_of_mem _ (ih h)

theorem ctSet_mem {ct : CompareText} {t : String} {v : List Pt} {e : String × List Pt}
    (h : e ∈ ctSet ct t v) : e.2 = v ∨ e ∈ ct := by
  induction ct with
  | nil =>
    simp only [ctSet, List.mem_singleton] at h
    subst h
    exact Or.inl rfl
  | cons f rest ih =>
    obtain ⟨k, w⟩ := f
    by_cases hk : k = t
    · simp only [ctSet, if_pos hk] at h
      rcases List.mem_cons.mp h with h | h
      · subst h; exact Or.inl rfl
      · exact Or.inr (List.mem_cons_of_mem _ h)
    · simp only [ctSet, if_neg hk] at h
      rcases List.mem_cons.mp h with h | h
      · subst h; exact Or.inr (List.mem_cons_self _ _)
      · rcases ih h with h | h
        · exact Or.inl h
        · exact Or.inr (List.mem_cons_of_mem _ h)

theorem anchorIsTooClose_preserves {ct : CompareText} {r : ℚ} (text : String) (anchor : Pt)
    (h : spacedRegistry r ct) :
    spacedRegistry r (anchorIsTooClose ct text r anchor).2 := by
  unfold anchorIsTooClose
  cases hl : ctLookup ct text with
  | none =>
    intro e he
    rcases ctSet_mem he with h2 | h2
    · rw [h2]
      exact List.pairwise_singleton _ _
    · exact h e h2
  | some others =>
    show spacedRegistry r
      (if (others.any fun o => distLtB anchor o r) = true then (true, ct)
        else (false, ctSet ct text (others ++ [anchor]))).2
    by_cases hany : others.any (fun o => distLtB anchor o r)
    · rw [if_pos hany]
      exact h
    · rw [if_neg hany]
      rw [Bool.not_eq_true] at hany
      intro e he
      rcases ctSet_mem he with h2 | h2
      · rw [h2]
        unfold spacedList
        rw [List.pairwise_append]
        refine ⟨h _ (ctLookup_mem hl), List.pairwise_singleton _ _, ?_⟩
        intro a ha b hb
        rw [List.mem_singleton] at hb
        subst hb
        have h3 := List.any_eq_false.mp hany a ha
        rw [distLtB_comm]
        simpa using h3
      · exact h e h2

/-- The registry produced by a sequence of `anchorIsTooClose` calls within
one bucket build, starting from the empty `compareText` (line 187). -/
def runAnchorCalls (r : ℚ) (calls : List (String × Pt)) : CompareText :=
  calls.foldl (fun ct c => (anchorIsTooClose ct c.1 r c.2).2) []

theorem runAnchorCallsFrom_spaced (r : ℚ) (calls : List (String × Pt)) (ct : CompareText)
    (h : spacedRegistry r ct) :
    spacedRegistry r (calls.foldl (fun ct c => (anchorIsTooClose ct c.1 r c.2).2) ct) := by
  induction calls generalizing ct with
  | nil => exact h
  | cons c rest ih =>
    exact ih _ (anchorIsTooClose_preserves c.1 c.2 h)

theorem runAnchorCalls_spaced (r : ℚ) (calls : List (String × Pt)) :
    spacedRegistry r (runAnchorCalls r calls) := by
  unfold runAnchorCalls
  exact runAnchorCallsFrom_spaced r calls [] (fun e he => absurd he (List.not_mem_nil e))

/-- C3: within one bucket build, any two accepted anchors registered under
the same rendered text are at distance at least `symbolMinDistance / 2`
from each other (stated through the squared distance: with
`r = symbolMinDistance / 2 > 0`, `dist ≥ r ↔ r * r ≤ distSq`).  Accepted
anchors with a given text are exactly the registry entry for that text. -/
theorem line_dedup_min_distance (calls : List (String × Pt)) (symbolMinDistance : ℚ)
    (hpos : 0 < symbolMinDistance) (t : String) (l : List Pt)
    (hmem : (t, l) ∈ runAnchorCalls (symbolMinDistance / 2) calls) :
    l.Pairwise (fun a b => (symbolMinDistance / 2) * (symbolMinDistance / 2) ≤ distSq a b) := by
  have hr : 0 < symbolMinDistance / 2 := by positivity
  have hs := runAnchorCalls_spaced (symbolMinDistance / 2) calls (t, l) hmem
  refine hs.imp ?_
  intro a b hab
  unfold distLtB at hab
  rw [Bool.and_eq_false_iff] at hab
  rcases hab with hab | hab
  · rw [decide_eq_false_iff_not] at hab
    exact absurd hr hab
  · rw [decide_eq_false_iff_not, not_lt] at hab
    exact hab

/-- Witness for C3: two anchors 100 units apart sharing the text
"Main St" with `symbolMinDistance = 100` are both accepted, and the
registered list is pairwise spaced by at least 50. -/
theorem line_dedup_min_distance_witness :
    (("Main St", [(⟨0, 0⟩ : Pt), ⟨100, 0⟩]) ∈
        runAnchorCalls ((100 : ℚ) / 2) [("Main St", ⟨0, 0⟩), ("Main St", ⟨100, 0⟩)]) ∧
      List.Pairwise (fun a b => ((100 : ℚ) / 2) * ((100 : ℚ) / 2) ≤ distSq a b)
        [(⟨0, 0⟩ : Pt), ⟨100, 0⟩] := by
  have hdist : distLtB (⟨100, 0⟩ : Pt) ⟨0, 0⟩ ((100 : ℚ) / 2) = false := by
    unfold distLtB
    have hn : ¬ (distSq ⟨100, 0⟩ ⟨0, 0⟩ < ((100 : ℚ) / 2) * ((100 : ℚ) / 2)) := by
      unfold distSq
      norm_num
    simp [hn]
  have e1 : (anchorIsTooClose [] "Main St" ((100 : ℚ) / 2) ⟨0, 0⟩).2
      = [("Main St", [(⟨0, 0⟩ : Pt)])] := rfl
  have e2 : (anchorIsTooClose [("Main St", [(⟨0, 0⟩ : Pt)])] "Main St" ((100 : ℚ) / 2) ⟨100, 0⟩).2
      = [("Main St", [(⟨0, 0⟩ : Pt), ⟨100, 0⟩])] := by
    unfold anchorIsTooClose
    have hlk : ctLookup [("Main St", [(⟨0, 0⟩ : Pt)])] "Main St" = some [⟨0, 0⟩] := rfl
    rw [hlk]
    simp only [List.any_cons, List.any_nil, hdist, Bool.or_false]
    rfl
  have hrun : runAnchorCalls ((100 : ℚ) / 2) [("Main St", ⟨0, 0⟩), ("Main St", ⟨100, 0⟩)]
      = [("Main St", [(⟨0, 0⟩ : Pt), ⟨100, 0⟩])] := by
    unfold runAnchorCalls
    simp only [List.foldl_cons, List.foldl_nil]
    rw [e1, e2]
  have hmem : ("Main St", [(⟨0, 0⟩ : Pt), ⟨100, 0⟩]) ∈
      runAnchorCalls ((100 : ℚ) / 2) [("Main St", ⟨0, 0⟩), ("Main St", ⟨100, 0⟩)] := by
    rw [hrun]
    exact List.mem_singleton.mpr rfl
  exact ⟨hmem,
    line_dedup_min_distance [("Main St", ⟨0, 0⟩), ("Main St", ⟨100, 0⟩)] 100 (by norm_num)
      "Main St" [⟨0, 0⟩, ⟨100, 0⟩] hmem⟩

/-! ## Variable-anchor justification loop (`performSymbolLayout`, symbol_layout.ts:299-327)

For a layer with `text-variable-anchor`, the loop computes one shaping per
requested justification; after a first shaping with exactly one positioned
line it takes the `singleLine` branch, which executes
`shapedTextOrientations.horizontal[justification] = shapedTextOrientations.horizontal[0]`.
The `horizontal` object starts as `{}` (line 243) and is only ever keyed by
the justification strings, so the numeric key `0` is never present and the
lookup yields `undefined`; the assignment creates the key with value
`undefined`.  The loop guard `if (shapedTextOrientations.horizontal[justification]) continue`
is a truthiness test, so a key holding `undefined` does not short-circuit it. -/

/-- A text justification (the strings 'left' | 'center' | 'right';
`"auto"` is resolved to one of these before the loop). -/
inductive TextJustify
  | left
  | center
  | right
deriving DecidableEq, Repr

/-- The per-feature `shapedTextOrientations.horizontal` object.  A key may
be present with value `undefined` (modelled `none`), which is distinct
from the key being absent. -/
abbrev HorizontalShapings := List (TextJustify × Option Shaping)

/-- `horizontal[j]`: `none` when the key is absent, `some v` when present
with value `v` (`v = none` models a key holding `undefined`). -/
def hLookup : HorizontalShapings → TextJustify → Option (Option Shaping)
  | [], _ => none
  | (k, v) :: rest, j => if k = j then some v else hLookup rest j

/-- `horizontal[j] = v`: overwrite in place if the key exists, else append. -/
def hSet : HorizontalShapings → TextJustify → Option Shaping → HorizontalShapings
  | [], j, v => [(j, v)]
  | (k, w) :: rest, j, v => if k = j then (k, v) :: rest else (k, w) :: hSet rest j v

/-- The lookup `shapedTextOrientations.horizontal[0]` (line 313): the
object is only ever keyed by the justification strings, so the numeric key
`0` is never present and the lookup yields `undefined`. -/
def hLookupNumericZero (_h : HorizontalShapings) : Option Shaping := none

/-- The justification loop of `performSymbolLayout` (lines 306-325).
`shapeTextFn` abstracts `shapeText` at the loop's fixed arguments
(`shapeText` lives in `shaping.ts`, not under src/); it returns `none`
when shaping fails. -/
def shapeJustificationsLoop (shapeTextFn : TextJustify → Option Shaping) :
    List TextJustify → HorizontalShapings → Bool → HorizontalShapings
  | [], h, _ => h
  | j :: rest, h, singleLine =>
    match hLookup h j with
    | some (some _) => shapeJustificationsLoop shapeTextFn rest h singleLine
    | _ =>
      if singleLine then
        shapeJustificationsLoop shapeTextFn rest (hSet h j (hLookupNumericZero h)) singleLine
      else
        match shapeTextFn j with
        | some shaping =>
            shapeJustificationsLoop shapeTextFn rest (hSet h j (some shaping))
              (shaping.positionedLines.length == 1)
        | none => shapeJustificationsLoop shapeTextFn rest h singleLine

/-- The loop started on the fresh `horizontal = {}` with
`singleLine = false`. -/
def shapeJustifications (shapeTextFn : TextJustify → Option Shaping)
    (justifications : List TextJustify) : HorizontalShapings :=
  shapeJustificationsLoop shapeTextFn justifications [] false

/-- A shaping whose text occupies exactly one positioned line. -/
def singleLineShaping : Shaping :=
  { top := -12, bottom := 0, left := -20, right := 20,
    positionedLines := [⟨[⟨0, 0⟩, ⟨10, 0⟩]⟩], text := "Oak", iconsInText := false,
    collisionPadding := none }

/-- C1 evaluated at the failing input: with three requested justifications
and a first shaping of exactly one positioned line, the remaining
justifications are assigned `horizontal[0]` — an absent key, hence
`undefined` — instead of the first justification's Shaping object, although
the source's own comment says "we can re-use it for the other
justifications". -/
theorem variable_anchor_reuse_divergence :
    shapeJustifications (fun _ => some singleLineShaping)
        [TextJustify.left, TextJustify.center, TextJustify.right]
      = [(TextJustify.left, some singleLineShaping), (TextJustify.center, none),
          (TextJustify.right, none)] ∧
      hLookup
          (shapeJustifications (fun _ => some singleLineShaping)
            [TextJustify.left, TextJustify.center, TextJustify.right]) TextJustify.center
        = some none ∧
      (some (none : Option Shaping)) ≠ some (some singleLineShaping) := by
  refine ⟨rfl, rfl, ?_⟩
  intro h
  injection h with h
  exact Option.noConfusion h

/-! ## Polygon point placement (`addFeature`, symbol_layout.ts:656-665)

For a `Polygon`-typed feature with symbol-placement = "point", the source
iterates `classifyRings(feature.geometry, 0)` and, per classified polygon,
anchors one symbol at `findPoleOfInaccessibility(polygon, 16)` (the source
comments "16 here represents 2 pixels").  Both utilities live outside
src/; `classifyRings` output is taken as the input `classifiedPolygons`
and `findPoleOfInaccessibility` is the abstract parameter `poi`
(modelled from the spec: it returns the point inside the polygon farthest
from any edge, at the given precision). -/

/-- The polygon/point branch of `addFeature`: one `addSymbolAtAnchor` call
per classified polygon, anchored at that polygon's pole of
inaccessibility; `acc` is the bucket's instance-anchor list. -/
def addFeaturePolygonPoint (extent : ℚ) (classifiedPolygons : List (List (List Pt)))
    (poi : List (List Pt) → ℚ → Pt) (acc : List Pt) : List Pt :=
  classifiedPolygons.foldl
    (fun acc polygon =>
      if addSymbolAtAnchorKeeps extent (poi polygon 16) then acc ++ [poi polygon 16] else acc)
    acc

theorem addFeaturePolygonPoint_eq_filter (extent : ℚ)
    (classifiedPolygons : List (List (List Pt))) (poi : List (List Pt) → ℚ → Pt)
    (acc : List Pt) :
    addFeaturePolygonPoint extent classifiedPolygons poi acc =
      acc ++ (classifiedPolygons.map (fun polygon => poi polygon 16)).filter
        (addSymbolAtAnchorKeeps extent) := by
  induction classifiedPolygons generalizing acc with
  | nil => simp [addFeaturePolygonPoint]
  | cons polygon rest ih =>
    simp only [addFeaturePolygonPoint, List.foldl_cons, List.map_cons, List.filter_cons] at *
    by_cases h : addSymbolAtAnchorKeeps extent (poi polygon 16)
    · simp only [h, if_true, ih, List.append_assoc, List.singleton_append]
    · simp only [h, if_false, ih]
      simp

/-- A square that lies entirely in the tile's buffer zone (all coordinates
negative): its pole of inaccessibility is its center `(-55, -55)`. -/
def bufferZoneSquare : List (List Pt) :=
  [[⟨-100, -100⟩, ⟨-10, -100⟩, ⟨-10, -10⟩, ⟨-100, -10⟩, ⟨-100, -100⟩]]

/-- Counterexample to C6 as stated: a polygon feature whose pole of
inaccessibility falls outside `[0, EXTENT)` (here a polygon entirely in
the tile's buffer zone, with `EXTENT = 8192`) yields zero Symbol
Instances, not exactly one. -/
theorem polygon_point_not_always_one_instance :
    addFeaturePolygonPoint 8192 [bufferZoneSquare] (fun _ _ => ⟨-55, -55⟩) [] = [] ∧
      (addFeaturePolygonPoint 8192 [bufferZoneSquare] (fun _ _ => ⟨-55, -55⟩) []).length ≠ 1 := by
  have hout : addSymbolAtAnchorKeeps 8192 (⟨-55, -55⟩ : Pt) = false := by
    unfold addSymbolAtAnchorKeeps
    rw [decide_eq_true (show (-55 : ℚ) < 0 by norm_num)]
    rfl
  have h : addFeaturePolygonPoint 8192 [bufferZoneSquare] (fun _ _ => ⟨-55, -55⟩) [] = [] := by
    unfold addFeaturePolygonPoint
    simp [hout]
  refine ⟨h, ?_⟩
  rw [h]
  simp

/-- C6 amended: a polygon feature with symbol-placement = "point" yields
one Symbol Instance per classified polygon whose pole of inaccessibility
(computed with the source's precision argument 16) lies within
`[0, EXTENT)` on both axes, anchored at that pole; in particular a single
classified polygon with an in-range pole yields exactly one instance,
regardless of the polygon's vertex count. -/
theorem polygon_point_instances (extent : ℚ) (classifiedPolygons : List (List (List Pt)))
    (poi : List (List Pt) → ℚ → Pt) :
    addFeaturePolygonPoint extent classifiedPolygons poi [] =
        (classifiedPolygons.map (fun polygon => poi polygon 16)).filter
          (addSymbolAtAnchorKeeps extent) ∧
      ∀ polygon, addSymbolAtAnchorKeeps extent (poi polygon 16) = true →
        addFeaturePolygonPoint extent [polygon] poi [] = [poi polygon 16] := by
  refine ⟨by simpa using addFeaturePolygonPoint_eq_filter extent classifiedPolygons poi [], ?_⟩
  intro polygon hin
  unfold addFeaturePolygonPoint
  simp [hin]

/-- Witness for the amended C6: a concrete polygon whose pole is in range
yields exactly the one instance anchored there. -/
theorem polygon_point_instances_witness :
    addSymbolAtAnchorKeeps 8192 ((fun (_ : List (List Pt)) (_ : ℚ) => (⟨300, 400⟩ : Pt))
        bufferZoneSquare 16) = true ∧
      addFeaturePolygonPoint 8192 [bufferZoneSquare] (fun _ _ => ⟨300, 400⟩) [] = [⟨300, 400⟩] := by
  have hin : addSymbolAtAnchorKeeps 8192 (⟨300, 400⟩ : Pt) = true := by
    rw [addSymbolAtAnchorKeeps_iff]
    norm_num
  exact ⟨hin, (polygon_point_instances 8192 [bufferZoneSquare] (fun _ _ => ⟨300, 400⟩)).2
    bufferZoneSquare hin⟩

/-! ## Line clipping before anchor enumeration (`addFeature`, symbol_layout.ts:619-638)

For symbol-placement = "line" the source iterates
`clipLine(feature.geometry, 0, 0, EXTENT, EXTENT)` and enumerates anchors
only on the returned clipped polylines.  `clipLine` lives in
`clip_line.ts` (not under src/); modelled from the spec, it clips against
the rectangular region described by its four arguments `(x1, y1, x2, y2)`. -/

/-- The four clip-rectangle arguments `addFeature` passes to `clipLine`
for line placement (line 620): `(0, 0, EXTENT, EXTENT)`. -/
def lineClipArgs (extent : ℚ) : ℚ × ℚ × ℚ × ℚ := (0, 0, extent, extent)

/-- Modelled from the spec: the rectangular clip region
`[x1, x2] × [y1, y2]` denoted by the line clipper's four arguments. -/
def clipRegion (args : ℚ × ℚ × ℚ × ℚ) : Set (ℚ × ℚ) :=
  {p | args.1 ≤ p.1 ∧ p.1 ≤ args.2.2.1 ∧ args.2.1 ≤ p.2 ∧ p.2 ≤ args.2.2.2}

/-- The line-placement branch's clipping step: the polylines over which
anchors are then enumerated. -/
def lineBranchClippedLines (extent : ℚ)
    (clipLineFn : List (List Pt) → ℚ → ℚ → ℚ → ℚ → List (List Pt))
    (geometry : List (List Pt)) : List (List Pt) :=
  clipLineFn geometry (lineClipArgs extent).1 (lineClipArgs extent).2.1
    (lineClipArgs extent).2.2.1 (lineClipArgs extent).2.2.2

/-- Counterexample to C7 as stated: at `EXTENT = 8192` the clip region
passed by `addFeature` is exactly `[0, EXTENT] × [0, EXTENT]`; it is not a
region strictly larger than that square (no buffer is added). -/
theorem line_clip_region_not_buffered :
    clipRegion (lineClipArgs 8192) = Set.Icc (0 : ℚ) 8192 ×ˢ Set.Icc (0 : ℚ) 8192 ∧
      ¬ (Set.Icc (0 : ℚ) 8192 ×ˢ Set.Icc (0 : ℚ) 8192 ⊂ clipRegion (lineClipArgs 8192)) := by
  have heq : clipRegion (lineClipArgs 8192) = Set.Icc (0 : ℚ) 8192 ×ˢ Set.Icc (0 : ℚ) 8192 := by
    ext p
    simp only [clipRegion, lineClipArgs, Set.mem_setOf_eq, Set.mem_prod, Set.mem_Icc]
    tauto
  refine ⟨heq, ?_⟩
  rw [heq]
  exact ssubset_irrefl _

/-- C7 amended: for symbol-placement = "line", before anchors are
enumerated the feature's geometry is clipped against exactly the tile
rectangle `[0, EXTENT] × [0, EXTENT]`, with no buffer. -/
theorem line_clip_region_exact (extent : ℚ)
    (clipLineFn : List (List Pt) → ℚ → ℚ → ℚ → ℚ → List (List Pt))
    (geometry : List (List Pt)) :
    lineBranchClippedLines extent clipLineFn geometry = clipLineFn geometry 0 0 extent extent ∧
      clipRegion (lineClipArgs extent) = Set.Icc (0 : ℚ) extent ×ˢ Set.Icc (0 : ℚ) extent := by
  refine ⟨rfl, ?_⟩
  ext p
  simp only [clipRegion, lineClipArgs, Set.mem_setOf_eq, Set.mem_prod, Set.mem_Icc]
  tauto

/-! ## Packed size values (symbol_layout.ts:680-733 and 943-960)

`MAX_GLYPH_ICON_SIZE = 255` and
`MAX_PACKED_SIZE = MAX_GLYPH_ICON_SIZE * SIZE_PACK_FACTOR` (lines 680-681).
`SIZE_PACK_FACTOR` is imported from `symbol_size.ts` (not under src/) and
is kept as the parameter `spf`. -/

def MAX_GLYPH_ICON_SIZE : ℚ := 255

def MAX_PACKED_SIZE (spf : ℚ) : ℚ := MAX_GLYPH_ICON_SIZE * spf

/-- The size-data kinds of `bucket.textSizeData.kind` /
`bucket.iconSizeData.kind`. -/
inductive SizeDataKind
  | constantKind
  | source
  | camera
  | composite
deriving DecidableEq, Repr

/-- The `textSizeData` computation and overflow warning of
`addTextVertices` (lines 715-733): for kind `source` one packed entry, for
kind `composite` two; the warning fires when an entry strictly exceeds
`MAX_PACKED_SIZE`.  Returns the packed entries (`none` models `null`) and
whether `warnOnce` was invoked. -/
def addTextVerticesSizeData (spf : ℚ) (kind : SizeDataKind)
    (evaluatedTextSize compositeTextSize0 compositeTextSize1 textScaleFactor : ℚ) :
    Option (List ℚ) × Bool :=
  match kind with
  | .source =>
      (some [spf * evaluatedTextSize * textScaleFactor],
        decide (MAX_PACKED_SIZE spf < spf * evaluatedTextSize * textScaleFactor))
  | .composite =>
      (some [spf * compositeTextSize0 * textScaleFactor,
          spf * compositeTextSize1 * textScaleFactor],
        decide (MAX_PACKED_SIZE spf < spf * compositeTextSize0 * textScaleFactor) ||
          decide (MAX_PACKED_SIZE spf < spf * compositeTextSize1 * textScaleFactor))
  | _ => (none, false)

/-- The `iconSizeData` computation and overflow warning of the icon block
of `addSymbol` (lines 943-960); structurally identical to the text path. -/
def addSymbolIconSizeData (spf : ℚ) (kind : SizeDataKind)
    (evaluatedIconSize compositeIconSize0 compositeIconSize1 iconScaleFactor : ℚ) :
    Option (List ℚ) × Bool :=
  match kind with
  | .source =>
      (some [spf * evaluatedIconSize * iconScaleFactor],
        decide (MAX_PACKED_SIZE spf < spf * evaluatedIconSize * iconScaleFactor))
  | .composite =>
      (some [spf * compositeIconSize0 * iconScaleFactor,
          spf * compositeIconSize1 * iconScaleFactor],
        decide (MAX_PACKED_SIZE spf < spf * compositeIconSize0 * iconScaleFactor) ||
          decide (MAX_PACKED_SIZE spf < spf * compositeIconSize1 * iconScaleFactor))
  | _ => (none, false)

/-- Modelled from the spec: the packed-size consumer (the packed vertex
data written through `bucket.addSymbols`, not under src/) stores each
value clamped at the representable maximum `MAX_PACKED_SIZE`. -/
def clampPackedSize (spf v : ℚ) : ℚ := min v (MAX_PACKED_SIZE spf)

/-- Modelled from the spec: `warnOnce` (`util/util.ts`, not under src/)
logs a given message once per cause: a message already in the log is not
appended again. -/
def warnOnceLog (log : List String) (msg : String) : List String :=
  if msg ∈ log then log else log ++ [msg]

/-- C8: when an evaluated text-size or icon-size, after packing, strictly
exceeds `MAX_PACKED_SIZE`, the warning is raised (and a repeated identical
warning is logged only once), the stored value is clamped to the
representable maximum, and size data is still produced — layout proceeds
without failing. -/
theorem packed_size_overflow_handling (spf : ℚ) (kind : SizeDataKind)
    (e c0 c1 scale : ℚ) :
    (∀ v ∈ (addTextVerticesSizeData spf kind e c0 c1 scale).1.getD [],
        MAX_PACKED_SIZE spf < v →
          (addTextVerticesSizeData spf kind e c0 c1 scale).2 = true ∧
            clampPackedSize spf v = MAX_PACKED_SIZE spf) ∧
      (∀ v ∈ (addSymbolIconSizeData spf kind e c0 c1 scale).1.getD [],
        MAX_PACKED_SIZE spf < v →
          (addSymbolIconSizeData spf kind e c0 c1 scale).2 = true ∧
            clampPackedSize spf v = MAX_PACKED_SIZE spf) ∧
      (∀ msg, warnOnceLog (warnOnceLog [] msg) msg = warnOnceLog [] msg) := by
  refine ⟨?_, ?_, ?_⟩
  · intro v hv hover
    cases kind with
    | constantKind => simp [addTextVerticesSizeData] at hv
    | camera => simp [addTextVerticesSizeData] at hv
    | source =>
      simp only [addTextVerticesSizeData, Option.getD_some, List.mem_singleton] at hv
      subst hv
      refine ⟨by simp [addTextVerticesSizeData, hover], ?_⟩
      exact min_eq_right (le_of_lt hover)
    | composite =>
      simp only [addTextVerticesSizeData, Option.getD_some, List.mem_cons,
        List.mem_singleton, List.not_mem_nil, or_false] at hv
      refine ⟨?_, min_eq_right (le_of_lt hover)⟩
      rcases hv with hv | hv <;> subst hv <;>
        simp [addTextVerticesSizeData, hover]
  · intro v hv hover
    cases kind with
    | constantKind => simp [addSymbolIconSizeData] at hv
    | camera => simp [addSymbolIconSizeData] at hv
    | source =>
      simp only [addSymbolIconSizeData, Option.getD_some, List.mem_singleton] at hv
      subst hv
      refine ⟨by simp [addSymbolIconSizeData, hover], ?_⟩
      exact min_eq_right (le_of_lt hover)
    | composite =>
      simp only [addSymbolIconSizeData, Option.getD_some, List.mem_cons,
        List.mem_singleton, List.not_mem_nil, or_false] at hv
      refine ⟨?_, min_eq_right (le_of_lt hover)⟩
      rcases hv with hv | hv <;> subst hv <;>
        simp [addSymbolIconSizeData, hover]
  · intro msg
    simp [warnOnceLog]

/-- Witness for C8 at `SIZE_PACK_FACTOR = 128` with a source-driven
text-size of 300: the packed value 38400 exceeds
`MAX_PACKED_SIZE = 32640`, the warning fires and the clamp stores the
maximum. -/
theorem packed_size_overflow_handling_witness :
    (addTextVerticesSizeData 128 SizeDataKind.source 300 0 0 1).2 = true ∧
      clampPackedSize 128 38400 = MAX_PACKED_SIZE 128 := by
  have hmem : (38400 : ℚ) ∈
      (addTextVerticesSizeData 128 SizeDataKind.source 300 0 0 1).1.getD [] := by
    show (38400 : ℚ) ∈ [(128 : ℚ) * 300 * 1]
    norm_num
  have hover : MAX_PACKED_SIZE 128 < (38400 : ℚ) := by
    unfold MAX_PACKED_SIZE MAX_GLYPH_ICON_SIZE
    norm_num
  exact (packed_size_overflow_handling 128 SizeDataKind.source 300 0 0 1).1 38400 hmem hover

/-! ## The full layout pipeline (`performSymbolLayout` + `addFeature`, symbol_layout.ts:158-678)

The bucket's observable output for the claims below is the ordered list of
emitted symbol-instance anchors together with the `compareText` registry
(the one piece of cross-feature state that influences later emissions).
Collaborators not under src/ — `clipLine`, `getAnchors`,
`getCenterAnchor`, `classifyRings`, `findPoleOfInaccessibility` — are
abstract function parameters collected in `LayoutConfig`; per-bucket style
constants (`EXTENT`, `symbol-placement`, `textRepeatDistance`) are fields
of the same record.  Per-feature data that the shaping stage derives
before `addFeature` is called (whether text shaping succeeded and its
rendered text; whether an icon was shaped) is carried on the feature. -/

/-- The `symbol-placement` values dispatched on by `addFeature`
(lines 590-616 and 619-677). -/
inductive SymbolPlacement
  | point
  | line
  | lineCenter
  | vertex
  | firstVertex
  | lastVertex
  | firstLastVertex
  | exceptFirstVertex
  | exceptLastVertex
  | middleVertex
deriving DecidableEq, Repr

/-- The geometry variant of a feature (`feature.type`). -/
inductive GeomType
  | point
  | lineString
  | polygon
deriving DecidableEq, Repr

/-- One feature as seen by `addFeature`: its geometry variant and
coordinate lists, the rendered text of its default shaping when text
shaping succeeded (`none` otherwise), and whether an icon was shaped. -/
structure SymbolFeature where
  type : GeomType
  geometry : List (List Pt)
  shapedText : Option String
  hasShapedIcon : Bool
deriving DecidableEq, Repr

/-- The per-bucket constants and abstract collaborators of one layout
run. -/
structure LayoutConfig where
  extent : ℚ
  symbolPlacement : SymbolPlacement
  textRepeatDistance : ℚ
  clipLineFn : List (List Pt) → ℚ → ℚ → ℚ → ℚ → List (List Pt)
  getAnchorsFn : List Pt → List Pt
  getCenterAnchorFn : List Pt → Option Pt
  classifyRingsFn : List (List Pt) → List (List (List Pt))
  poiFn : List (List Pt) → ℚ → Pt

/-- The mutable bucket state threaded through one layout run: the emitted
symbol-instance anchors in emission order, and the `compareText`
registry. -/
structure BucketState where
  instances : List Pt
  compareText : CompareText
deriving DecidableEq, Repr

/-- `addSymbolAtAnchor` (lines 561-586): drop the anchor if out of range,
else `addSymbol` appends exactly one symbol instance. -/
def addSymbolAtAnchorM (extent : ℚ) (st : BucketState) (a : Pt) : BucketState :=
  if addSymbolAtAnchorKeeps extent a then { st with instances := st.instances ++ [a] } else st

/-- One anchor of the line-placement loop (lines 632-637):
`if (!shapedText || !anchorIsTooClose(bucket, shapedText.text, textRepeatDistance, anchor))
addSymbolAtAnchor(...)`.  When a default shaping exists, `anchorIsTooClose`
updates the registry first (even if the anchor is later dropped as out of
range); placement happens only when it returns `false`. -/
def lineAnchorStep (extent r : ℚ) (textOpt : Option String) (st : BucketState) (a : Pt) :
    BucketState :=
  match textOpt with
  | none => addSymbolAtAnchorM extent st a
  | some text =>
      if (anchorIsTooClose st.compareText text r a).1 then
        { st with compareText := (anchorIsTooClose st.compareText text r a).2 }
      else
        addSymbolAtAnchorM extent
          { st with compareText := (anchorIsTooClose st.compareText text r a).2 } a

/-- The vertices selected by `addSymbolAtAnchorFromLine` (lines 588-617)
for each vertex-family placement mode.  Each guarded branch tests
`placement === X && lengthGuard`; when the length guard fails, every later
`else if` also fails (the placement is fixed), so control falls through to
the final `else` (line 615), which anchors at `line[0]`.  The
`point`/`line`/`line-center` values reach this function only through that
same final `else`.  An empty line yields no anchors (the source presumes
non-empty rings). -/
def vertexAnchors (placement : SymbolPlacement) (line : List Pt) : List Pt :=
  match placement with
  | .vertex => line
  | .firstVertex => line.take 1
  | .lastVertex => if line.length > 1 then line.getLast?.toList else line.take 1
  | .firstLastVertex =>
      line.take 1 ++ (if line.length > 1 then line.getLast?.toList else [])
  | .exceptFirstVertex => if line.length > 1 then line.tail else line.take 1
  | .exceptLastVertex => if line.length > 1 then line.dropLast else line.take 1
  | .middleVertex => if line.length > 2 then line.tail.dropLast else line.take 1
  | _ => line.take 1

/-- `addSymbolAtAnchorFromLine`: one `addSymbolAtAnchor` call per selected
vertex, in vertex order. -/
def addSymbolAtAnchorFromLineM (extent : ℚ) (placement : SymbolPlacement)
    (st : BucketState) (line : List Pt) : BucketState :=
  (vertexAnchors placement line).foldl (addSymbolAtAnchorM extent) st

/-- `addFeature` (lines 489-678), restricted to the state it threads:
line placement walks the clipped geometry through `getAnchors` and the
`anchorIsTooClose` filter; line-center places one center anchor per
multi-vertex line; polygons with placement "point" anchor at the pole of
inaccessibility per classified polygon, other polygon placements fall
through to the vertex-family rules on the outer ring; LineString features
use the vertex-family rules per line; Point features anchor every
coordinate. -/
def addFeatureM (cfg : LayoutConfig) (st : BucketState) (f : SymbolFeature) : BucketState :=
  match cfg.symbolPlacement with
  | .line =>
      (cfg.clipLineFn f.geometry 0 0 cfg.extent cfg.extent).foldl
        (fun st line =>
          (cfg.getAnchorsFn line).foldl
            (lineAnchorStep cfg.extent cfg.textRepeatDistance f.shapedText) st)
        st
  | .lineCenter =>
      f.geometry.foldl
        (fun st line =>
          if line.length > 1 then
            match cfg.getCenterAnchorFn line with
            | some anchor => addSymbolAtAnchorM cfg.extent st anchor
            | none => st
          else st)
        st
  | placement =>
      match f.type with
      | .polygon =>
          (cfg.classifyRingsFn f.geometry).foldl
            (fun st polygon =>
              if placement = SymbolPlacement.point then
                addSymbolAtAnchorM cfg.extent st (cfg.poiFn polygon 16)
              else
                addSymbolAtAnchorFromLineM cfg.extent placement st (polygon.headD []))
            st
      | .lineString =>
          f.geometry.foldl (addSymbolAtAnchorFromLineM cfg.extent placement) st
      | .point =>
          f.geometry.foldl
            (fun st points => points.foldl (addSymbolAtAnchorM cfg.extent) st)
            st

/-- The per-feature gate of `performSymbolLayout` (line 386):
`if (shapedText || shapedIcon) addFeature(...)`. -/
def processFeature (cfg : LayoutConfig) (st : BucketState) (f : SymbolFeature) : BucketState :=
  if f.shapedText.isSome || f.hasShapedIcon then addFeatureM cfg st f else st

/-- `performSymbolLayout`: the feature loop over a freshly created bucket
(`bucket.createArrays()`, `bucket.compareText = {}`, lines 183-187). -/
def performSymbolLayoutModel (cfg : LayoutConfig) (features : List SymbolFeature) :
    BucketState :=
  features.foldl (processFeature cfg) { instances := [], compareText := [] }

/-- A state-step function appends to the instance list and updates the
registry in a way that depends only on the registry, not on the instances
already emitted. -/
def AppendsOnly {α : Type} (g : BucketState → α → BucketState) : Prop :=
  ∀ (st : BucketState) (a : α),
    g st a = { instances := st.instances ++ (g ⟨[], st.compareText⟩ a).instances,
               compareText := (g ⟨[], st.compareText⟩ a).compareText }

/-- The instances contributed by one feature, given the registry state it
starts from. -/
def featureChunk (cfg : LayoutConfig) (ct : CompareText) (f : SymbolFeature) : List Pt :=
  (processFeature cfg ⟨[], ct⟩ f).instances

/-- The registry state after one feature, given the registry state it
starts from. -/
def featureRegistry (cfg : LayoutConfig) (ct : CompareText) (f : SymbolFeature) : CompareText :=
  (processFeature cfg ⟨[], ct⟩ f).compareText

/-- The in-order concatenation of per-feature instance contributions,
threading the registry from feature to feature. -/
def layoutChunks (cfg : LayoutConfig) : List SymbolFeature → CompareText → List Pt
  | [], _ => []
  | f :: fs, ct => featureChunk cfg ct f ++ layoutChunks cfg fs (featureRegistry cfg ct f)

theorem addSymbolAtAnchorM_appends (extent : ℚ) : AppendsOnly (addSymbolAtAnchorM extent) := by
  intro st a
  unfold addSymbolAtAnchorM
  by_cases h : addSymbolAtAnchorKeeps extent a <;> simp [h]

theorem foldl_appendsOnly {α : Type} {g : BucketState → α → BucketState} (hg : AppendsOnly g) :
    AppendsOnly (fun (st : BucketState) (xs : List α) => xs.foldl g st) := by
  intro st xs
  induction xs generalizing st with
  | nil => simp
  | cons x xs ih =>
    have ih' : ∀ st : BucketState, List.foldl g st xs =
        { instances := st.instances ++ (List.foldl g ⟨[], st.compareText⟩ xs).instances,
          compareText := (List.foldl g ⟨[], st.compareText⟩ xs).compareText } := ih
    simp only [List.foldl_cons]
    rw [ih' (g st x), hg st x]
    simp only
    rw [ih' (g ⟨[], st.compareText⟩ x)]
    simp [List.append_assoc]

theorem lineAnchorStep_appends (extent r : ℚ) (textOpt : Option String) :
    AppendsOnly (lineAnchorStep extent r textOpt) := by
  intro st a
  cases textOpt with
  | none => exact addSymbolAtAnchorM_appends extent st a
  | some text =>
    unfold lineAnchorStep
    by_cases h : (anchorIsTooClose st.compareText text r a).1 <;>
      by_cases h2 : addSymbolAtAnchorKeeps extent a <;>
        simp [addSymbolAtAnchorM, h, h2]

theorem addSymbolAtAnchorFromLineM_appends (extent : ℚ) (placement : SymbolPlacement) :
    AppendsOnly (addSymbolAtAnchorFromLineM extent placement) := by
  intro st line
  exact foldl_appendsOnly (addSymbolAtAnchorM_appends extent) st (vertexAnchors placement line)

theorem lineCenterStep_appends (cfg : LayoutConfig) :
    AppendsOnly (fun (st : BucketState) (line : List Pt) =>
      if line.length > 1 then
        match cfg.getCenterAnchorFn line with
        | some anchor => addSymbolAtAnchorM cfg.extent st anchor
        | none => st
      else st) := by
  intro st line
  by_cases hl : line.length > 1
  · cases hc : cfg.getCenterAnchorFn line with
    | some anchor =>
      simp only [if_pos hl, hc]
      exact addSymbolAtAnchorM_appends cfg.extent st anchor
    | none => simp [if_pos hl, hc]
  · simp [if_neg hl]

theorem polygonStep_appends (cfg : LayoutConfig) (placement : SymbolPlacement) :
    AppendsOnly (fun (st : BucketState) (polygon : List (List Pt)) =>
      if placement = SymbolPlacement.point then
        addSymbolAtAnchorM cfg.extent st (cfg.poiFn polygon 16)
      else addSymbolAtAnchorFromLineM cfg.extent placement st (polygon.headD [])) := by
  intro st polygon
  by_cases hp : placement = SymbolPlacement.point
  · simp only [if_pos hp]
    exact addSymbolAtAnchorM_appends cfg.extent st (cfg.poiFn polygon 16)
  · simp only [if_neg hp]
    exact addSymbolAtAnchorFromLineM_appends cfg.extent placement st (polygon.headD [])

theorem addFeatureVertexFamily_appends (cfg : LayoutConfig) (placement : SymbolPlacement) :
    AppendsOnly (fun (st : BucketState) (f : SymbolFeature) =>
      match f.type with
      | GeomType.polygon =>
          (cfg.classifyRingsFn f.geometry).foldl
            (fun st polygon =>
              if placement = SymbolPlacement.point then
                addSymbolAtAnchorM cfg.extent st (cfg.poiFn polygon 16)
              else addSymbolAtAnchorFromLineM cfg.extent placement st (polygon.headD []))
            st
      | GeomType.lineString =>
          f.geometry.foldl (addSymbolAtAnchorFromLineM cfg.extent placement) st
      | GeomType.point =>
          f.geometry.foldl
            (fun st points => points.foldl (addSymbolAtAnchorM cfg.extent) st) st) := by
  intro st f
  cases ht : f.type with
  | polygon =>
    simp only [ht]
    exact foldl_appendsOnly (polygonStep_appends cfg placement) st (cfg.classifyRingsFn f.geometry)
  | lineString =>
    simp only [ht]
    exact foldl_appendsOnly (addSymbolAtAnchorFromLineM_appends cfg.extent placement) st f.geometry
  | point =>
    simp only [ht]
    exact foldl_appendsOnly (foldl_appendsOnly (addSymbolAtAnchorM_appends cfg.extent)) st
      f.geometry

theorem addFeatureM_appends (cfg : LayoutConfig) : AppendsOnly (addFeatureM cfg) := by
  intro st f
  cases hp : cfg.symbolPlacement with
  | line =>
    simp only [addFeatureM, hp]
    exact foldl_appendsOnly
      (fun st line =>
        foldl_appendsOnly
          (lineAnchorStep_appends cfg.extent cfg.textRepeatDistance f.shapedText) st
          (cfg.getAnchorsFn line))
      st (cfg.clipLineFn f.geometry 0 0 cfg.extent cfg.extent)
  | lineCenter =>
    simp only [addFeatureM, hp]
    exact foldl_appendsOnly (lineCenterStep_appends cfg) st f.geometry
  | point =>
    simp only [addFeatureM, hp]
    exact addFeatureVertexFamily_appends cfg SymbolPlacement.point st f
  | vertex =>
    simp only [addFeatureM, hp]
    exact addFeatureVertexFamily_appends cfg SymbolPlacement.vertex st f
  | firstVertex =>
    simp only [addFeatureM, hp]
    exact addFeatureVertexFamily_appends cfg SymbolPlacement.firstVertex st f
  | lastVertex =>
    simp only [addFeatureM, hp]
    exact addFeatureVertexFamily_appends cfg SymbolPlacement.lastVertex st f
  | firstLastVertex =>
    simp only [addFeatureM, hp]
    exact addFeatureVertexFamily_appends cfg SymbolPlacement.firstLastVertex st f
  | exceptFirstVertex =>
    simp only [addFeatureM, hp]
    exact addFeatureVertexFamily_appends cfg SymbolPlacement.exceptFirstVertex st f
  | exceptLastVertex =>
    simp only [addFeatureM, hp]
    exact addFeatureVertexFamily_appends cfg SymbolPlacement.exceptLastVertex st f
  | middleVertex =>
    simp only [addFeatureM, hp]
    exact addFeatureVertexFamily_appends cfg SymbolPlacement.middleVertex st f

theorem processFeature_appends (cfg : LayoutConfig) : AppendsOnly (processFeature cfg) := by
  intro st f
  unfold processFeature
  by_cases h : (f.shapedText.isSome || f.hasShapedIcon) = true
  · rw [if_pos h, if_pos h]
    exact addFeatureM_appends cfg st f
  · rw [if_neg h, if_neg h]
    simp

theorem performSymbolLayout_chunks (cfg : LayoutConfig) (features : List SymbolFeature) :
    ∀ st : BucketState,
      (features.foldl (processFeature cfg) st).instances
        = st.instances ++ layoutChunks cfg features st.compareText := by
  induction features with
  | nil =>
    intro st
    simp [layoutChunks]
  | cons f fs ih =>
    intro st
    simp only [List.foldl_cons, layoutChunks]
    rw [processFeature_appends cfg st f, ih]
    simp [featureChunk, featureRegistry, List.append_assoc]

/-- C9: the layout is deterministic — two runs on equal feature input from
an initially empty bucket produce equal symbol-instance arrays — and the
output array decomposes as the in-order concatenation of per-feature
contributions (features processed in input order, each contribution
computed from the registry state left by the preceding features, anchors
within a feature appended in generation order). -/
theorem layout_deterministic_ordered (cfg : LayoutConfig) (features : List SymbolFeature) :
    performSymbolLayoutModel cfg features = performSymbolLayoutModel cfg features ∧
      (performSymbolLayoutModel cfg features).instances = layoutChunks cfg features [] := by
  refine ⟨rfl, ?_⟩
  unfold performSymbolLayoutModel
  rw [performSymbolLayout_chunks cfg features ⟨[], []⟩]
  simp

end SymbolLayout
